import Mathlib

/-!
# KeeLoq CodeWord decoder (src/pd.py) — shallow embedding and verification

This file embeds the sigrokdecode KeeLoq decoder `src/pd.py` into Lean 4.

Modelling choices:
* Durations are exact rationals (seconds).  The Python code computes
  `t = (n - prevN) / samplerate` on floats; all constants involved are exact
  decimal fractions and all comparisons are far from float rounding error,
  so `ℚ` is a faithful model.
* Edge acquisition (`self.wait`) is modelled by an explicit list of edge
  sample numbers.  `decode` consumes the list; a `wait` with no edge left
  ends the run (the Python decoder would suspend forever at that point,
  never mutating further state).
* `self.put(ss, es, out_ann, [cls, [txt]])` is modelled by appending
  `(ss, es, cls, txt)` to a list of annotations carried in the state.
* The `raise Exception(...)` on a missing sample rate is modelled with
  `Except String`.
* `int(bs, 2)` is modelled by `binToNat` (a fold over the characters); the
  decoder only ever applies it to nonempty strings of 0/1 characters, where
  the two agree.  The Python format `0x` plus value padded with zeroes to at
  least seven uppercase hex digits is modelled by `Bin2Hex`.
-/

/-- Annotation class indices, from `class Ann` in src/pd.py. -/
def Ann.TE : ℕ := 0

/-- Annotation class `LOGICAL_BIT = 1`. -/
def Ann.LOGICAL_BIT : ℕ := 1

/-- Annotation class `CODE_WORD = 2`. -/
def Ann.CODE_WORD : ℕ := 2

/-- Annotation class `ENCRYP_DATA = 3`. -/
def Ann.ENCRYP_DATA : ℕ := 3

/-- Annotation class `FIXED_DATA = 4`. -/
def Ann.FIXED_DATA : ℕ := 4

/-- TE timing table entry 0: 280 µs (src/pd.py line 63). -/
def TE_Timing0 : ℚ := 280 / 1000000

/-- TE timing table entry 1: 580 µs. -/
def TE_Timing1 : ℚ := 580 / 1000000

/-- TE timing table entry 2: 700 µs. -/
def TE_Timing2 : ℚ := 700 / 1000000

/-- TE timing table entry 3: 1000 µs. -/
def TE_Timing3 : ℚ := 1000 / 1000000

/-- TE timing table entry 4: 3 ms. -/
def TE_Timing4 : ℚ := 3 / 1000

/-- TE timing table entry 5: 6 ms. -/
def TE_Timing5 : ℚ := 6 / 1000

/-- Standard preamble pulse-count threshold (23). -/
def PREAMBLE_TE_Count_Std : ℕ := 23

/-- Short preamble pulse-count threshold (45). -/
def PREAMBLE_TE_Count_Short : ℕ := 45

/-- Lower bound of the short-TE window: `TE_Timing[0] * 0.5` (140 µs). -/
def PREAMBLE_TE_Timing_Short0 : ℚ := TE_Timing0 * (1 / 2)

/-- Upper bound of the short-TE window: `TE_Timing[1] * 0.5` (290 µs). -/
def PREAMBLE_TE_Timing_Short1 : ℚ := TE_Timing1 * (1 / 2)

/-- `in_short_te` of src/pd.py line 108: duration within the short-TE window. -/
def in_short_teB (t : ℚ) : Bool :=
  decide (PREAMBLE_TE_Timing_Short0 ≤ t) && decide (t ≤ PREAMBLE_TE_Timing_Short1)

/-- `in_std_te` of src/pd.py line 109: duration within the standard-TE window
(also the window of a logical-1 half bit, lines 174 and 190). -/
def in_std_teB (t : ℚ) : Bool :=
  decide (TE_Timing0 ≤ t) && decide (t ≤ TE_Timing1)

/-- Duration within the logical-0 half-bit window (src/pd.py line 175). -/
def in_bit0B (t : ℚ) : Bool :=
  decide (TE_Timing2 ≤ t) && decide (t ≤ TE_Timing3)

/-- Duration within the header-gap window (src/pd.py line 151). -/
def in_headerB (t : ℚ) : Bool :=
  decide (TE_Timing4 ≤ t) && decide (t ≤ TE_Timing5)

/-- Duration valid as a PWM half bit (src/pd.py lines 174-176). -/
def validHalfB (t : ℚ) : Bool := in_std_teB t || in_bit0B t

/-- The `self.KeyLoq` dictionary of decoded code-word fields. -/
structure KeyLoqRec where
  Encrypted : String
  SerialNumber : String
  S3 : String
  S0 : String
  S1 : String
  S2 : String
  VLow : String
  RPT : String
  deriving Repr, DecidableEq

/-- Decoder state: the mutable attributes of the `Decoder` object that the
decode loop reads and writes (sample-rate is passed separately; the wait
trigger condition is represented by the edge list itself). -/
structure St where
  TEcnt : ℕ
  Block_Init : ℕ
  ssBlock : ℕ
  Header_Completed : ℕ
  n : ℕ
  prevN : ℕ
  samplenum : ℕ
  Bitcnt : ℤ
  BitString : String
  KeyLoq : KeyLoqRec
  anns : List (ℕ × ℕ × ℕ × String)
  deriving Repr, DecidableEq

/-- The state produced by `Decoder.reset()`. -/
def reset : St :=
  { TEcnt := 0
    Block_Init := 0
    ssBlock := 0
    Header_Completed := 0
    n := 0
    prevN := 0
    samplenum := 0
    Bitcnt := 0
    BitString := ""
    KeyLoq := { Encrypted := "", SerialNumber := "", S3 := "", S0 := "", S1 := "",
                S2 := "", VLow := "", RPT := "" }
    anns := [] }

/-- `self.put(ss, es, self.out_ann, [cls, [txt]])`: emit one annotation. -/
def put (s : St) (ss es : ℕ) (cls : ℕ) (txt : String) : St :=
  { s with anns := s.anns ++ [(ss, es, cls, txt)] }

/-- `Start_Block` (src/pd.py lines 100-103). -/
def Start_Block (s : St) : St :=
  if s.Block_Init = 0 then { s with Block_Init := 1, ssBlock := s.prevN } else s

/-- `Reset_DP_Cnts` (src/pd.py lines 216-218). -/
def Reset_DP_Cnts (s : St) : St :=
  { s with Block_Init := 0, BitString := "" }

/-- `int(bs, 2)`: interpret a string of 0/1 characters as a binary numeral. -/
def binToNat (bs : String) : ℕ :=
  bs.data.foldl (fun a c => 2 * a + (if c = '1' then 1 else 0)) 0

/-- Uppercase hexadecimal digit character for a value below 16. -/
def hexDigitChar (n : ℕ) : Char :=
  if n < 10 then Char.ofNat (48 + n) else Char.ofNat (55 + n)

/-- Hexadecimal digits, least significant first; the first argument is fuel
bounding the number of digits (structural recursion so that the function
reduces definitionally; with fuel at least the value itself it never runs
out, see `toHexRevAux_val`). -/
def toHexRevAux : ℕ → ℕ → List Char
  | _, 0 => []
  | 0, _ + 1 => []
  | f + 1, n + 1 => hexDigitChar ((n + 1) % 16) :: toHexRevAux f ((n + 1) / 16)

/-- Hexadecimal digits of a natural number, least significant first
(empty for 0, matching zero-padded formatting below). -/
def toHexRevDigits (n : ℕ) : List Char := toHexRevAux n n

/-- `Bin2Hex` (src/pd.py lines 221-225): value of the accumulated binary
string, written as 0x followed by at least seven zero-padded uppercase
hexadecimal digits. -/
def Bin2Hex (bs : String) : String :=
  let ds := (toHexRevDigits (binToNat bs)).reverse
  "0x" ++ String.mk (List.replicate (7 - ds.length) '0' ++ ds)

/-- Result of `Decode_LogicalBit`: either a returned bit string together with
the updated state and whether the inner `wait` consumed an edge, or a
starved run (the inner `wait` had no edge left; the Python coroutine would
suspend forever in the state carried here). -/
inductive LBRes where
  | got : St → String → Bool → LBRes
  | starve : St → LBRes
  deriving Repr, DecidableEq

/-- `Decode_LogicalBit` (src/pd.py lines 165-213).  `next` is the edge the
inner `self.wait(self.trig_cond)` would return. -/
def Decode_LogicalBit (t : ℚ) (next : Option ℕ) (s : St) : LBRes :=
  if validHalfB t then
    let s1 := Start_Block s
    if s1.Bitcnt = 65 then
      let s2 := { s1 with n := s1.samplenum + 8 }
      let bit := if in_std_teB t then "1" else "0"
      LBRes.got (put s2 s2.prevN s2.n Ann.LOGICAL_BIT ("Bit " ++ bit)) bit false
    else
      match next with
      | none => LBRes.starve s1
      | some e =>
        let s2 := { s1 with samplenum := e, n := e }
        let bit := if in_std_teB t then "1" else "0"
        LBRes.got (put s2 s2.prevN s2.n Ann.LOGICAL_BIT ("Bit " ++ bit)) bit true
  else
    let s1 := put s s.prevN s.n Ann.LOGICAL_BIT ">>> Invalid Bit <<< "
    LBRes.got { Reset_DP_Cnts s1 with Header_Completed := 0, Bitcnt := -1 } "0" false

/-- Result of `Decode_DataPortion`: updated state plus whether an extra edge
was consumed, or a starved run. -/
inductive DPRes where
  | done : St → Bool → DPRes
  | starve : St → DPRes
  deriving Repr, DecidableEq

/-- `Decode_DataPortion` (src/pd.py lines 228-344).  Each branch dispatches
on the bit counter as read on entry; the re-reads of `self.Bitcnt` after the
call to `Decode_LogicalBit` (which may have set it to -1) are preserved. -/
def Decode_DataPortion (t : ℚ) (next : Option ℕ) (s : St) : DPRes :=
  if s.Bitcnt ≤ 31 then
    match Decode_LogicalBit t next s with
    | LBRes.starve s1 => DPRes.starve s1
    | LBRes.got s1 bit c =>
      let s2 := { s1 with BitString := bit ++ s1.BitString }
      if s2.Bitcnt = 31 then
        let s3 := put s2 s2.ssBlock s2.n Ann.CODE_WORD "Encrypted Portion"
        let s4 := { s3 with KeyLoq := { s3.KeyLoq with Encrypted := Bin2Hex s3.BitString } }
        let s5 := put s4 s4.ssBlock s4.n Ann.ENCRYP_DATA s4.KeyLoq.Encrypted
        DPRes.done (Reset_DP_Cnts s5) c
      else DPRes.done s2 c
  else if 32 ≤ s.Bitcnt ∧ s.Bitcnt ≤ 59 then
    match Decode_LogicalBit t next s with
    | LBRes.starve s1 => DPRes.starve s1
    | LBRes.got s1 bit c =>
      let s2 := { s1 with BitString := bit ++ s1.BitString }
      if s2.Bitcnt = 59 then
        let s3 := put s2 s2.ssBlock s2.n Ann.CODE_WORD "Serial Number"
        let s4 := { s3 with KeyLoq := { s3.KeyLoq with SerialNumber := Bin2Hex s3.BitString } }
        let s5 := put s4 s4.ssBlock s4.n Ann.FIXED_DATA s4.KeyLoq.SerialNumber
        DPRes.done (Reset_DP_Cnts s5) c
      else DPRes.done s2 c
  else if 60 ≤ s.Bitcnt ∧ s.Bitcnt ≤ 63 then
    match Decode_LogicalBit t next s with
    | LBRes.starve s1 => DPRes.starve s1
    | LBRes.got s1 bit c =>
      if s1.Bitcnt = 60 then
        let s2 := { s1 with KeyLoq := { s1.KeyLoq with S3 := bit } }
        DPRes.done (put s2 s2.prevN s2.n Ann.FIXED_DATA ("S3 = " ++ s2.KeyLoq.S3)) c
      else if s1.Bitcnt = 61 then
        let s2 := { s1 with KeyLoq := { s1.KeyLoq with S0 := bit } }
        DPRes.done (put s2 s2.prevN s2.n Ann.FIXED_DATA ("S0 = " ++ s2.KeyLoq.S0)) c
      else if s1.Bitcnt = 62 then
        let s2 := { s1 with KeyLoq := { s1.KeyLoq with S1 := bit } }
        DPRes.done (put s2 s2.prevN s2.n Ann.FIXED_DATA ("S1 = " ++ s2.KeyLoq.S1)) c
      else if s1.Bitcnt = 63 then
        let s2 := { s1 with KeyLoq := { s1.KeyLoq with S2 := bit } }
        let s3 := put s2 s2.ssBlock s2.n Ann.CODE_WORD "Button Code"
        let s4 := put s3 s3.prevN s3.n Ann.FIXED_DATA ("S2 = " ++ s3.KeyLoq.S2)
        DPRes.done (Reset_DP_Cnts s4) c
      else DPRes.done s1 c
  else if s.Bitcnt = 64 then
    match Decode_LogicalBit t next s with
    | LBRes.starve s1 => DPRes.starve s1
    | LBRes.got s1 bit c =>
      let s2 := put s1 s1.ssBlock s1.n Ann.CODE_WORD "V-Low"
      let s3 := { s2 with KeyLoq := { s2.KeyLoq with
                    VLow := if bit = "0" then "Battery High" else "Battery Low" } }
      let s4 := put s3 s3.prevN s3.n Ann.FIXED_DATA s3.KeyLoq.VLow
      DPRes.done (Reset_DP_Cnts s4) c
  else if s.Bitcnt = 65 then
    match Decode_LogicalBit t next s with
    | LBRes.starve s1 => DPRes.starve s1
    | LBRes.got s1 bit c =>
      let s2 := put s1 s1.ssBlock s1.n Ann.CODE_WORD "RPT"
      let s3 := { s2 with KeyLoq := { s2.KeyLoq with
                    RPT := if bit = "0" then "No" else "Yes" } }
      let s4 := put s3 s3.prevN s3.n Ann.FIXED_DATA s3.KeyLoq.RPT
      DPRes.done { Reset_DP_Cnts s4 with Header_Completed := 0, Bitcnt := -1 } c
  else DPRes.done s false

/-- `Decode_Preable` (src/pd.py lines 106-162, spelling kept from source). -/
def Decode_Preable (t : ℚ) (s : St) : St :=
  let in_short_te := in_short_teB t
  let in_std_te := in_std_teB t
  if in_short_te || in_std_te then
    let s1 :=
      if in_short_te && decide (s.TEcnt < PREAMBLE_TE_Count_Short) then
        Start_Block (put s s.prevN s.samplenum Ann.TE (toString s.TEcnt))
      else if in_std_te && decide (s.TEcnt < PREAMBLE_TE_Count_Std) then
        Start_Block (put s s.prevN s.samplenum Ann.TE (toString s.TEcnt))
      else s
    if (in_short_te && decide (s1.TEcnt = PREAMBLE_TE_Count_Short)) ||
       (in_std_te && decide (s1.TEcnt = PREAMBLE_TE_Count_Std)) then
      put (put s1 s1.ssBlock s1.n Ann.CODE_WORD "Preamble")
        s1.prevN s1.samplenum Ann.TE (toString s1.TEcnt)
    else s1
  else if in_headerB t &&
      (decide (s.TEcnt = PREAMBLE_TE_Count_Std + 1) ||
       decide (s.TEcnt = PREAMBLE_TE_Count_Short + 1)) then
    { put s s.prevN s.n Ann.CODE_WORD "Header" with
        TEcnt := 0, Block_Init := 0, Header_Completed := 1 }
  else
    { s with TEcnt := 0, Block_Init := 0 }

/-- One iteration of the main loop while the header is not yet complete:
`self.TEcnt += 1; self.Decode_Preable(t)` (src/pd.py lines 369-371). -/
def preambleStep (t : ℚ) (s : St) : St :=
  Decode_Preable t { s with TEcnt := s.TEcnt + 1 }

/-- Iterate `preambleStep` over a list of inter-edge durations. -/
def runPre (ts : List ℚ) (s : St) : St :=
  ts.foldl (fun s t => preambleStep t s) s

/-- One iteration of the main loop in the data phase:
`self.Decode_DataPortion(t); self.Bitcnt += 1` followed by
`self.prevN = self.samplenum` (src/pd.py lines 372-377); `none` when the run
starves inside `Decode_LogicalBit`. -/
def dataStep (t : ℚ) (next : Option ℕ) (s : St) : Option St :=
  match Decode_DataPortion t next s with
  | DPRes.starve _ => none
  | DPRes.done s1 _ => some { s1 with Bitcnt := s1.Bitcnt + 1, prevN := s1.samplenum }

/-- The `while True` loop of `decode` (src/pd.py lines 360-377) over the
remaining edges.  The first argument is fuel bounding the number of loop
iterations (structural recursion so that the function reduces
definitionally); every iteration consumes at least one edge, so with fuel
equal to the number of edges the loop always ends on the empty edge list,
exactly where the Python coroutine would suspend forever. -/
def decodeLoop (sr : ℚ) : ℕ → List ℕ → St → St
  | 0, _, s => s
  | _ + 1, [], s => s
  | fuel + 1, e :: rest, s =>
    let s1 := { s with samplenum := e, n := e }
    let t := ((e : ℚ) - (s.prevN : ℚ)) / sr
    if s1.Header_Completed = 0 then
      let s2 := Decode_Preable t { s1 with TEcnt := s1.TEcnt + 1 }
      decodeLoop sr fuel rest { s2 with prevN := s2.samplenum }
    else
      match Decode_DataPortion t rest.head? s1 with
      | DPRes.starve s2 => s2
      | DPRes.done s2 true =>
        decodeLoop sr fuel rest.tail { s2 with Bitcnt := s2.Bitcnt + 1, prevN := s2.samplenum }
      | DPRes.done s2 false =>
        decodeLoop sr fuel rest { s2 with Bitcnt := s2.Bitcnt + 1, prevN := s2.samplenum }

/-- The successful path of `decode`: anchor on the first (rising) edge, then
run the loop on the remaining edges (src/pd.py lines 351-377). -/
def okRun (sr : ℚ) (edges : List ℕ) : St :=
  match edges with
  | [] => reset
  | e :: rest => decodeLoop sr rest.length rest { reset with prevN := e, samplenum := e }

/-- `decode` (src/pd.py lines 347-377): raises when no sample rate is known,
otherwise runs the decode loop from the reset state. -/
def decode (samplerate : Option ℚ) (edges : List ℕ) : Except String St :=
  match samplerate with
  | none => Except.error "Cannot decode without samplerate."
  | some sr => Except.ok (okRun sr edges)

/-! ## Concrete edge streams (sample rate 1 MHz, so one sample = 1 µs) -/

/-- Sample-count deltas of the two halves of one PWM bit: a logical 1 is a
400 µs high half then an 800 µs low half; a logical 0 is the reverse. -/
def halfDeltas (b : Bool) : List ℕ := if b then [400, 800] else [800, 400]

/-- The 66 data bits of the C1 scenario: bits 0-31 alternate 1,0,1,0,...
starting with 1 (LSB transmitted first), bits 32-59 all 0, then
S3=1, S0=0, S1=1, S2=0, V-Low bit 1, Repeat bit 0. -/
def C1bitList : List Bool :=
  (List.range 32).map (fun i => decide (i % 2 = 0))
  ++ List.replicate 28 false
  ++ [true, false, true, false, true, false]

/-- Inter-edge deltas of the C1 stream: 23 standard TEs of 400 µs, a 4 ms
header gap, the two half bits of each data bit (only the first half of the
final bit 65, which has no trailing edge). -/
def C1deltas : List ℕ :=
  List.replicate 23 400 ++ [4000] ++ (C1bitList.dropLast.flatMap halfDeltas) ++ [800]

/-- The C1 edge stream (anchor edge at sample 100). -/
def C1edges : List ℕ := C1deltas.scanl (· + ·) 100

attribute [local semireducible] Rat.sub Rat.mul Rat.inv in
set_option maxRecDepth 1000000 in
/-- C3 stream up to and including the invalid edge: preamble + header + ten
valid 1-bits + one 2 ms duration at bit position 10 (invalid: outside both
half-bit windows). -/
def C3deltasA : List ℕ :=
  List.replicate 23 400 ++ [4000] ++ (List.replicate 10 true).flatMap halfDeltas ++ [2000]

/-- The C3 edge stream through the invalid edge. -/
def C3edgesA : List ℕ := C3deltasA.scanl (· + ·) 100

/-- The 66 bits of the code word following the aborted C3 attempt: bit 0 is
1, every other bit 0, so its encrypted field has value 1. -/
def C3bits2 : List Bool := true :: List.replicate 65 false

/-- The full C3 stream: the aborted attempt, then a complete transmission
whose encrypted value is 1. -/
def C3deltas : List ℕ :=
  C3deltasA ++ List.replicate 23 400 ++ [4000]
  ++ (C3bits2.dropLast.flatMap halfDeltas) ++ [800]

/-- The full C3 edge stream. -/
def C3edges : List ℕ := C3deltas.scanl (· + ·) 100

/-! ## Claim theorems -/

attribute [local semireducible] Rat.sub Rat.mul Rat.inv in
set_option maxRecDepth 1000000 in
/-- C1 (counterexample): on the exact stream the claim describes (23
standard-TE pulses, 4 ms header gap, 66 bits with bits 0-31 alternating
1,0,1,0,... LSB first), the decoder's Encrypted field is the eight-digit
"0x55555555", not the seven-digit "0x5555555" the claim states: the 32
alternating bits have value 0x55555555, which needs eight hex digits. -/
theorem c1_counterexample :
    (okRun 1000000 C1edges).KeyLoq.Encrypted = "0x55555555" ∧
    ¬ (okRun 1000000 C1edges).KeyLoq.Encrypted = "0x5555555" :=
  ⟨by decide, by decide⟩

attribute [local semireducible] Rat.sub Rat.mul Rat.inv in
set_option maxRecDepth 1000000 in
/-- C1 (amended): same scenario, with Encrypted corrected to "0x55555555";
all other fields are as the claim states: Serial-Number "0x0000000", S3 "1",
S0 "0", S1 "1", S2 "0", V-Low "Battery Low", RPT "No". -/
theorem c1_amended_run :
    (okRun 1000000 C1edges).KeyLoq =
      { Encrypted := "0x55555555", SerialNumber := "0x0000000", S3 := "1", S0 := "0",
        S1 := "1", S2 := "0", VLow := "Battery Low", RPT := "No" } := by
  decide

attribute [local semireducible] Rat.sub Rat.mul Rat.inv in
set_option maxRecDepth 1000000 in
/-- C3 (code bug evaluated): an invalid duration at bit position 10 emits
exactly one Invalid-Bit annotation, clears the header-completed flag,
restarts bit counting at 0, and emits no encrypted-field annotation for the
aborted word — but the accumulation string is left holding the sentinel "0"
returned by the invalid branch (prepended after `Reset_DP_Cnts` cleared the
string), and that stale character corrupts the next code word: a following
complete transmission whose encrypted value is 1 decodes as "0x0000002"
instead of "0x0000001". -/
theorem c3_bug_run :
    ((okRun 1000000 C3edgesA).Header_Completed = 0 ∧
     (okRun 1000000 C3edgesA).Bitcnt = 0 ∧
     (okRun 1000000 C3edgesA).BitString = "0" ∧
     (okRun 1000000 C3edgesA).anns.countP
        (fun a => a.2.2.2 = ">>> Invalid Bit <<< ") = 1 ∧
     (okRun 1000000 C3edgesA).anns.countP (fun a => a.2.2.1 = Ann.ENCRYP_DATA) = 0 ∧
     (okRun 1000000 C3edgesA).anns.countP (fun a => a.2.2.2 = "Encrypted Portion") = 0) ∧
    ((okRun 1000000 C3edges).KeyLoq.Encrypted = "0x0000002" ∧
     ¬ (okRun 1000000 C3edges).KeyLoq.Encrypted = "0x0000001") :=
  ⟨by decide, by decide, by decide⟩

/-- C9: with no sample rate, `decode` fails immediately with the exact
diagnostic of src/pd.py line 349, independently of the edge stream (so no
edge is consumed and no partial decoding occurs); with a sample rate it
always returns a final state — no other exception leaves the decode loop. -/
theorem c9_samplerate :
    (∀ edges : List ℕ, decode none edges = Except.error "Cannot decode without samplerate.") ∧
    (∀ (sr : ℚ) (edges : List ℕ), decode (some sr) edges = Except.ok (okRun sr edges)) :=
  ⟨fun _ => rfl, fun _ _ => rfl⟩

/-! ## Projection lemmas for the small state transformers -/

@[simp] theorem put_TEcnt (s : St) (a b c : ℕ) (x : String) : (put s a b c x).TEcnt = s.TEcnt := rfl

@[simp] theorem put_Block_Init (s : St) (a b c : ℕ) (x : String) : (put s a b c x).Block_Init = s.Block_Init := rfl

@[simp] theorem put_ssBlock (s : St) (a b c : ℕ) (x : String) : (put s a b c x).ssBlock = s.ssBlock := rfl

@[simp] theorem put_Header (s : St) (a b c : ℕ) (x : String) : (put s a b c x).Header_Completed = s.Header_Completed := rfl

@[simp] theorem put_n (s : St) (a b c : ℕ) (x : String) : (put s a b c x).n = s.n := rfl

@[simp] theorem put_prevN (s : St) (a b c : ℕ) (x : String) : (put s a b c x).prevN = s.prevN := rfl

@[simp] theorem put_samplenum (s : St) (a b c : ℕ) (x : String) : (put s a b c x).samplenum = s.samplenum := rfl

@[simp] theorem put_Bitcnt (s : St) (a b c : ℕ) (x : String) : (put s a b c x).Bitcnt = s.Bitcnt := rfl

@[simp] theorem put_BitString (s : St) (a b c : ℕ) (x : String) : (put s a b c x).BitString = s.BitString := rfl

@[simp] theorem put_KeyLoq (s : St) (a b c : ℕ) (x : String) : (put s a b c x).KeyLoq = s.KeyLoq := rfl

@[simp] theorem put_anns (s : St) (a b c : ℕ) (x : String) : (put s a b c x).anns = s.anns ++ [(a, b, c, x)] := rfl

@[simp] theorem Start_Block_TEcnt (s : St) : (Start_Block s).TEcnt = s.TEcnt := by
  unfold Start_Block; split <;> rfl

@[simp] theorem Start_Block_Header (s : St) : (Start_Block s).Header_Completed = s.Header_Completed := by
  unfold Start_Block; split <;> rfl

@[simp] theorem Start_Block_Bitcnt (s : St) : (Start_Block s).Bitcnt = s.Bitcnt := by
  unfold Start_Block; split <;> rfl

@[simp] theorem Start_Block_BitString (s : St) : (Start_Block s).BitString = s.BitString := by
  unfold Start_Block; split <;> rfl

@[simp] theorem Start_Block_KeyLoq (s : St) : (Start_Block s).KeyLoq = s.KeyLoq := by
  unfold Start_Block; split <;> rfl

@[simp] theorem Start_Block_n (s : St) : (Start_Block s).n = s.n := by
  unfold Start_Block; split <;> rfl

@[simp] theorem Start_Block_prevN (s : St) : (Start_Block s).prevN = s.prevN := by
  unfold Start_Block; split <;> rfl

@[simp] theorem Start_Block_samplenum (s : St) : (Start_Block s).samplenum = s.samplenum := by
  unfold Start_Block; split <;> rfl

@[simp] theorem Start_Block_anns (s : St) : (Start_Block s).anns = s.anns := by
  unfold Start_Block; split <;> rfl

@[simp] theorem Reset_DP_Cnts_TEcnt (s : St) : (Reset_DP_Cnts s).TEcnt = s.TEcnt := rfl

@[simp] theorem Reset_DP_Cnts_Header (s : St) : (Reset_DP_Cnts s).Header_Completed = s.Header_Completed := rfl

@[simp] theorem Reset_DP_Cnts_Bitcnt (s : St) : (Reset_DP_Cnts s).Bitcnt = s.Bitcnt := rfl

@[simp] theorem Reset_DP_Cnts_KeyLoq (s : St) : (Reset_DP_Cnts s).KeyLoq = s.KeyLoq := rfl

@[simp] theorem Reset_DP_Cnts_anns (s : St) : (Reset_DP_Cnts s).anns = s.anns := rfl

@[simp] theorem Reset_DP_Cnts_n (s : St) : (Reset_DP_Cnts s).n = s.n := rfl

@[simp] theorem Reset_DP_Cnts_prevN (s : St) : (Reset_DP_Cnts s).prevN = s.prevN := rfl

@[simp] theorem Reset_DP_Cnts_samplenum (s : St) : (Reset_DP_Cnts s).samplenum = s.samplenum := rfl

@[simp] theorem Reset_DP_Cnts_ssBlock (s : St) : (Reset_DP_Cnts s).ssBlock = s.ssBlock := rfl

@[simp] theorem Reset_DP_Cnts_Block_Init (s : St) : (Reset_DP_Cnts s).Block_Init = 0 := rfl

@[simp] theorem Reset_DP_Cnts_BitString (s : St) : (Reset_DP_Cnts s).BitString = "" := rfl

/-! ## Window characterizations -/

theorem in_short_te_iff (t : ℚ) :
    in_short_teB t = true ↔ PREAMBLE_TE_Timing_Short0 ≤ t ∧ t ≤ PREAMBLE_TE_Timing_Short1 := by
  simp [in_short_teB]

theorem in_std_te_iff (t : ℚ) :
    in_std_teB t = true ↔ TE_Timing0 ≤ t ∧ t ≤ TE_Timing1 := by
  simp [in_std_teB]

theorem in_bit0_iff (t : ℚ) :
    in_bit0B t = true ↔ TE_Timing2 ≤ t ∧ t ≤ TE_Timing3 := by
  simp [in_bit0B]

theorem in_header_iff (t : ℚ) :
    in_headerB t = true ↔ TE_Timing4 ≤ t ∧ t ≤ TE_Timing5 := by
  simp [in_headerB]

attribute [local semireducible] Rat.sub Rat.mul Rat.inv in
/-- C5 (counterexample): the duration 285 µs lies in the short-preamble
window [140,290] µs and in the standard TE window [280,580] µs at the same
time, so those two windows do overlap (on [280,290] µs), contrary to the
claim that only Bit1Half and PreambleStd coincide. -/
theorem c5_counterexample :
    in_short_teB (285 / 1000000) = true ∧ in_std_teB (285 / 1000000) = true := by
  exact ⟨by decide, by decide⟩

/-- C5 (amended): the timing windows are pairwise non-overlapping except for
two coincidences: `Bit1Half` and `PreambleStd` share the very same window
(the decoder uses the single predicate `in_std_teB` for both), and the
short-preamble window overlaps the standard window exactly on
[280 µs, 290 µs].  All other pairs are disjoint. -/
theorem c5_windows :
    (∀ t : ℚ, (in_short_teB t && in_std_teB t) = true ↔
        (TE_Timing0 ≤ t ∧ t ≤ PREAMBLE_TE_Timing_Short1)) ∧
    (∀ t : ℚ, (in_short_teB t && in_bit0B t) = false) ∧
    (∀ t : ℚ, (in_short_teB t && in_headerB t) = false) ∧
    (∀ t : ℚ, (in_std_teB t && in_bit0B t) = false) ∧
    (∀ t : ℚ, (in_std_teB t && in_headerB t) = false) ∧
    (∀ t : ℚ, (in_bit0B t && in_headerB t) = false) := by
  have hc1 : PREAMBLE_TE_Timing_Short0 ≤ TE_Timing0 := by
    norm_num [PREAMBLE_TE_Timing_Short0, TE_Timing0]
  have hc2 : PREAMBLE_TE_Timing_Short1 ≤ TE_Timing1 := by
    norm_num [PREAMBLE_TE_Timing_Short1, TE_Timing1]
  have hc3 : PREAMBLE_TE_Timing_Short1 < TE_Timing2 := by
    norm_num [PREAMBLE_TE_Timing_Short1, TE_Timing1, TE_Timing2]
  have hc4 : PREAMBLE_TE_Timing_Short1 < TE_Timing4 := by
    norm_num [PREAMBLE_TE_Timing_Short1, TE_Timing1, TE_Timing4]
  have hc5 : TE_Timing1 < TE_Timing2 := by norm_num [TE_Timing1, TE_Timing2]
  have hc6 : TE_Timing1 < TE_Timing4 := by norm_num [TE_Timing1, TE_Timing4]
  have hc7 : TE_Timing3 < TE_Timing4 := by norm_num [TE_Timing3, TE_Timing4]
  refine ⟨fun t => ?_, fun t => ?_, fun t => ?_, fun t => ?_, fun t => ?_, fun t => ?_⟩
  · constructor
    · intro h
      rw [Bool.and_eq_true] at h
      have h1 := (in_short_te_iff t).mp h.1
      have h2 := (in_std_te_iff t).mp h.2
      exact ⟨h2.1, h1.2⟩
    · intro h
      rw [Bool.and_eq_true]
      exact ⟨(in_short_te_iff t).mpr ⟨by linarith [h.1], h.2⟩,
             (in_std_te_iff t).mpr ⟨h.1, by linarith [h.2]⟩⟩
  · cases hs : in_short_teB t with
    | false => simp
    | true =>
      have h := (in_short_te_iff t).mp hs
      have hb : in_bit0B t = false := by
        refine Bool.eq_false_iff.mpr fun hb => ?_
        have hb' := (in_bit0_iff t).mp hb
        linarith [h.2, hb'.1]
      simp [hb]
  · cases hs : in_short_teB t with
    | false => simp
    | true =>
      have h := (in_short_te_iff t).mp hs
      have hb : in_headerB t = false := by
        refine Bool.eq_false_iff.mpr fun hb => ?_
        have hb' := (in_header_iff t).mp hb
        linarith [h.2, hb'.1]
      simp [hb]
  · cases hs : in_std_teB t with
    | false => simp
    | true =>
      have h := (in_std_te_iff t).mp hs
      have hb : in_bit0B t = false := by
        refine Bool.eq_false_iff.mpr fun hb => ?_
        have hb' := (in_bit0_iff t).mp hb
        linarith [h.2, hb'.1]
      simp [hb]
  · cases hs : in_std_teB t with
    | false => simp
    | true =>
      have h := (in_std_te_iff t).mp hs
      have hb : in_headerB t = false := by
        refine Bool.eq_false_iff.mpr fun hb => ?_
        have hb' := (in_header_iff t).mp hb
        linarith [h.2, hb'.1]
      simp [hb]
  · cases hs : in_bit0B t with
    | false => simp
    | true =>
      have h := (in_bit0_iff t).mp hs
      have hb : in_headerB t = false := by
        refine Bool.eq_false_iff.mpr fun hb => ?_
        have hb' := (in_header_iff t).mp hb
        linarith [h.2, hb'.1]
      simp [hb]

/-! ## Preamble-phase lemmas -/

/-- While the duration lies in a TE window (short or standard), `Decode_Preable`
only emits annotations and block bookkeeping: it never changes `TEcnt` or
`Header_Completed`. -/
theorem Decode_Preable_teWindow (t : ℚ) (s : St)
    (h : (in_short_teB t || in_std_teB t) = true) :
    (Decode_Preable t s).TEcnt = s.TEcnt ∧
    (Decode_Preable t s).Header_Completed = s.Header_Completed := by
  unfold Decode_Preable
  simp only [h]
  split_ifs <;> simp

/-- A duration outside all recognized windows takes the final else branch:
both counters are cleared and nothing else changes. -/
theorem Decode_Preable_reset (t : ℚ) (s : St)
    (h1 : in_short_teB t = false) (h2 : in_std_teB t = false)
    (h3 : in_headerB t = false) :
    Decode_Preable t s = { s with TEcnt := 0, Block_Init := 0 } := by
  unfold Decode_Preable
  simp [h1, h2, h3]

/-- A header-window duration arriving with the counter at threshold+1
completes the header: `TEcnt` and `Block_Init` reset and
`Header_Completed` becomes 1. -/
theorem Decode_Preable_header (t : ℚ) (s : St)
    (hh : in_headerB t = true)
    (hc : s.TEcnt = PREAMBLE_TE_Count_Std + 1 ∨ s.TEcnt = PREAMBLE_TE_Count_Short + 1) :
    (Decode_Preable t s).TEcnt = 0 ∧
    (Decode_Preable t s).Header_Completed = 1 ∧
    (Decode_Preable t s).Block_Init = 0 := by
  have hgap := (in_header_iff t).mp hh
  have h1 : in_short_teB t = false := by
    refine Bool.eq_false_iff.mpr fun hx => ?_
    have hx' := (in_short_te_iff t).mp hx
    have : PREAMBLE_TE_Timing_Short1 < TE_Timing4 := by
      norm_num [PREAMBLE_TE_Timing_Short1, TE_Timing1, TE_Timing4]
    linarith [hx'.2, hgap.1]
  have h2 : in_std_teB t = false := by
    refine Bool.eq_false_iff.mpr fun hx => ?_
    have hx' := (in_std_te_iff t).mp hx
    have : TE_Timing1 < TE_Timing4 := by norm_num [TE_Timing1, TE_Timing4]
    linarith [hx'.2, hgap.1]
  unfold Decode_Preable
  rcases hc with hc | hc <;> simp [h1, h2, hh, hc]

/-- One preamble-phase loop iteration on a TE-window duration increments the
counter and leaves the phase flag unchanged. -/
theorem preambleStep_teWindow (t : ℚ) (s : St)
    (h : (in_short_teB t || in_std_teB t) = true) :
    (preambleStep t s).TEcnt = s.TEcnt + 1 ∧
    (preambleStep t s).Header_Completed = s.Header_Completed := by
  unfold preambleStep
  exact Decode_Preable_teWindow t { s with TEcnt := s.TEcnt + 1 } h

/-- Iterating preamble-phase steps over TE-window durations adds the list
length to the counter and preserves the phase flag. -/
theorem runPre_teWindow (ts : List ℚ) (s : St)
    (h : ∀ t ∈ ts, (in_short_teB t || in_std_teB t) = true) :
    (runPre ts s).TEcnt = s.TEcnt + ts.length ∧
    (runPre ts s).Header_Completed = s.Header_Completed := by
  induction ts generalizing s with
  | nil => simp [runPre]
  | cons t ts ih =>
    have ht := h t (List.mem_cons_self t ts)
    have hstep := preambleStep_teWindow t s ht
    have hrest := ih (preambleStep t s) (fun u hu => h u (List.mem_cons_of_mem t hu))
    have hfold : runPre (t :: ts) s = runPre ts (preambleStep t s) := rfl
    rw [hfold]
    refine ⟨?_, ?_⟩
    · rw [hrest.1, hstep.1]
      simp
      omega
    · rw [hrest.2, hstep.2]

/-- Splitting a trailing gap off a preamble run. -/
theorem runPre_append_single (ts : List ℚ) (g : ℚ) (s : St) :
    runPre (ts ++ [g]) s = preambleStep g (runPre ts s) := by
  unfold runPre
  rw [List.foldl_append]
  rfl

/-- C2: from the reset state, any 23 durations inside the standard TE
window followed by one header-gap duration drive the machine to the
data-decoding phase (`Header_Completed = 1`) with `TEcnt` reset to 0 (and
the counter indeed stands at 23 before the gap edge, hence 24 at the gap
check); any 45 short-window durations followed by a gap do the same. -/
theorem c2_preamble_transition :
    (∀ (ts : List ℚ) (g : ℚ), ts.length = PREAMBLE_TE_Count_Std →
      (∀ t ∈ ts, in_std_teB t = true) → in_headerB g = true →
      (runPre ts reset).TEcnt = PREAMBLE_TE_Count_Std ∧
      (runPre (ts ++ [g]) reset).Header_Completed = 1 ∧
      (runPre (ts ++ [g]) reset).TEcnt = 0) ∧
    (∀ (ts : List ℚ) (g : ℚ), ts.length = PREAMBLE_TE_Count_Short →
      (∀ t ∈ ts, in_short_teB t = true) → in_headerB g = true →
      (runPre ts reset).TEcnt = PREAMBLE_TE_Count_Short ∧
      (runPre (ts ++ [g]) reset).Header_Completed = 1 ∧
      (runPre (ts ++ [g]) reset).TEcnt = 0) := by
  constructor
  · intro ts g hlen hw hg
    have hcnt := runPre_teWindow ts reset (fun t ht => by simp [hw t ht])
    have h23 : (runPre ts reset).TEcnt = PREAMBLE_TE_Count_Std := by
      rw [hcnt.1, hlen]; rfl
    rw [runPre_append_single]
    have hhdr := Decode_Preable_header g
      { runPre ts reset with TEcnt := (runPre ts reset).TEcnt + 1 } hg
      (by rw [h23]; exact Or.inl rfl)
    exact ⟨h23, hhdr.2.1, hhdr.1⟩
  · intro ts g hlen hw hg
    have hcnt := runPre_teWindow ts reset (fun t ht => by simp [hw t ht])
    have h45 : (runPre ts reset).TEcnt = PREAMBLE_TE_Count_Short := by
      rw [hcnt.1, hlen]; rfl
    rw [runPre_append_single]
    have hhdr := Decode_Preable_header g
      { runPre ts reset with TEcnt := (runPre ts reset).TEcnt + 1 } hg
      (by rw [h45]; exact Or.inr rfl)
    exact ⟨h45, hhdr.2.1, hhdr.1⟩

attribute [local semireducible] Rat.sub Rat.mul Rat.inv in
set_option maxRecDepth 100000 in
/-- Witness for C2: the standard-preamble case evaluated on 23 pulses of
400 µs and a 4 ms gap. -/
theorem c2_preamble_transition_witness :
    (List.replicate 23 ((400 : ℚ) / 1000000)).length = PREAMBLE_TE_Count_Std ∧
    (∀ t ∈ List.replicate 23 ((400 : ℚ) / 1000000), in_std_teB t = true) ∧
    in_headerB ((4 : ℚ) / 1000) = true ∧
    ((runPre (List.replicate 23 ((400 : ℚ) / 1000000)) reset).TEcnt = PREAMBLE_TE_Count_Std ∧
     (runPre (List.replicate 23 ((400 : ℚ) / 1000000) ++ [(4 : ℚ) / 1000]) reset).Header_Completed = 1 ∧
     (runPre (List.replicate 23 ((400 : ℚ) / 1000000) ++ [(4 : ℚ) / 1000]) reset).TEcnt = 0) :=
  ⟨by decide, by decide, by decide,
   c2_preamble_transition.1 _ _ (by decide) (by decide) (by decide)⟩

/-- C8: a duration outside all three recognized windows (short TE, standard
TE, header gap) resets `TEcnt` to 0 and clears the block-start flag,
whatever the current counter value. -/
theorem c8_reset_all (s : St) (t : ℚ)
    (h1 : in_short_teB t = false) (h2 : in_std_teB t = false)
    (h3 : in_headerB t = false) :
    (preambleStep t s).TEcnt = 0 ∧ (preambleStep t s).Block_Init = 0 := by
  unfold preambleStep
  rw [Decode_Preable_reset t _ h1 h2 h3]
  exact ⟨rfl, rfl⟩

attribute [local semireducible] Rat.sub Rat.mul Rat.inv in
set_option maxRecDepth 100000 in
/-- Witness for C8: a 2 ms duration (outside every window) at counter
value 7. -/
theorem c8_reset_all_witness :
    in_short_teB ((2 : ℚ) / 1000) = false ∧ in_std_teB ((2 : ℚ) / 1000) = false ∧
    in_headerB ((2 : ℚ) / 1000) = false ∧
    ((preambleStep ((2 : ℚ) / 1000) { reset with TEcnt := 7 }).TEcnt = 0 ∧
     (preambleStep ((2 : ℚ) / 1000) { reset with TEcnt := 7 }).Block_Init = 0) :=
  ⟨by decide, by decide, by decide,
   c8_reset_all { reset with TEcnt := 7 } _ (by decide) (by decide) (by decide)⟩

/-- The state after 23 standard 400 µs preamble pulses from reset: the
preamble threshold has just been reached and the machine awaits the header
(`TEcnt = 23`, so the next edge is checked with the counter at 24). -/
def c4s : St := runPre (List.replicate 23 ((400 : ℚ) / 1000000)) reset

attribute [local semireducible] Rat.sub Rat.mul Rat.inv in
set_option maxRecDepth 200000 in
/-- C4 (counterexample): while awaiting the header, an edge of 400 µs — a
duration inside the standard TE window, hence not a header gap — does NOT
reset `teCount` to 0 and does not clear the block flag: the counter stays at
24 (threshold+1) and `Block_Init` stays 1, contrary to the claim that every
non-header duration resets the counter. -/
theorem c4_counterexample :
    c4s.TEcnt = PREAMBLE_TE_Count_Std ∧
    in_headerB ((400 : ℚ) / 1000000) = false ∧
    (preambleStep ((400 : ℚ) / 1000000) c4s).TEcnt = PREAMBLE_TE_Count_Std + 1 ∧
    ¬ (preambleStep ((400 : ℚ) / 1000000) c4s).TEcnt = 0 ∧
    (preambleStep ((400 : ℚ) / 1000000) c4s).Block_Init = 1 :=
  ⟨by decide, by decide, by decide, by decide, by decide⟩

/-- C4 (amended): while awaiting the header (counter about to reach
threshold+1 on this edge), an edge that matches neither the header-gap
window nor either TE window resets `teCount` to 0 and clears the
block-start flag; but an edge inside a TE window (short or standard) leaves
the counter un-reset — it increments to threshold+1 and the phase flag is
unchanged, so preamble acquisition is NOT restarted by such an edge. -/
theorem c4_awaiting_header (s : St) (t : ℚ)
    (_hc : s.TEcnt + 1 = PREAMBLE_TE_Count_Std + 1 ∨
           s.TEcnt + 1 = PREAMBLE_TE_Count_Short + 1) :
    ((in_short_teB t = false ∧ in_std_teB t = false ∧ in_headerB t = false) →
      (preambleStep t s).TEcnt = 0 ∧ (preambleStep t s).Block_Init = 0) ∧
    ((in_short_teB t || in_std_teB t) = true →
      (preambleStep t s).TEcnt = s.TEcnt + 1 ∧
      (preambleStep t s).Header_Completed = s.Header_Completed) := by
  refine ⟨fun h => ?_, fun h => ?_⟩
  · exact c8_reset_all s t h.1 h.2.1 h.2.2
  · exact preambleStep_teWindow t s h

attribute [local semireducible] Rat.sub Rat.mul Rat.inv in
set_option maxRecDepth 200000 in
/-- Witness for the amended C4: the awaiting-header state `c4s` with a
400 µs TE-window edge. -/
theorem c4_awaiting_header_witness :
    (c4s.TEcnt + 1 = PREAMBLE_TE_Count_Std + 1 ∨
     c4s.TEcnt + 1 = PREAMBLE_TE_Count_Short + 1) ∧
    (in_short_teB ((400 : ℚ) / 1000000) || in_std_teB ((400 : ℚ) / 1000000)) = true ∧
    ((preambleStep ((400 : ℚ) / 1000000) c4s).TEcnt = c4s.TEcnt + 1 ∧
     (preambleStep ((400 : ℚ) / 1000000) c4s).Header_Completed = c4s.Header_Completed) :=
  ⟨Or.inl (by decide), by decide,
   (c4_awaiting_header c4s _ (Or.inl (by decide))).2 (by decide)⟩

/-! ## Data-portion lemmas -/

/-- Invalid half-bit timing: `Decode_LogicalBit` emits the Invalid-Bit
annotation, clears the accumulation, drops the phase back to preamble
acquisition, marks the counter -1 and returns the string "0". -/
theorem LB_invalid (t : ℚ) (next : Option ℕ) (s : St)
    (h : validHalfB t = false) :
    Decode_LogicalBit t next s =
      LBRes.got { Reset_DP_Cnts (put s s.prevN s.n Ann.LOGICAL_BIT ">>> Invalid Bit <<< ") with
                    Header_Completed := 0, Bitcnt := -1 } "0" false := by
  unfold Decode_LogicalBit
  simp [h]

/-- Valid half-bit timing at a position other than 65: the inner wait
consumes the next edge and the bit value is decided by the standard-TE
window; counter, phase flag, code word and accumulation are untouched. -/
theorem LB_valid_ne (t : ℚ) (e : ℕ) (s : St)
    (hv : validHalfB t = true) (h65 : ¬ s.Bitcnt = 65) :
    ∃ s1, Decode_LogicalBit t (some e) s =
        LBRes.got s1 (if in_std_teB t then "1" else "0") true ∧
      s1.Bitcnt = s.Bitcnt ∧ s1.Header_Completed = s.Header_Completed ∧
      s1.KeyLoq = s.KeyLoq ∧ s1.BitString = s.BitString := by
  unfold Decode_LogicalBit
  have h65' : ¬ (Start_Block s).Bitcnt = 65 := by simpa using h65
  simp only [hv, if_true, if_neg h65']
  exact ⟨_, rfl, by simp, by simp, by simp, by simp⟩

/-- Valid half-bit timing at position 65: no edge is consumed; the end
boundary is padded by 8 samples. -/
theorem LB_valid_65 (t : ℚ) (next : Option ℕ) (s : St)
    (hv : validHalfB t = true) (h65 : s.Bitcnt = 65) :
    ∃ s1, Decode_LogicalBit t next s =
        LBRes.got s1 (if in_std_teB t then "1" else "0") false ∧
      s1.Bitcnt = s.Bitcnt ∧ s1.Header_Completed = s.Header_Completed ∧
      s1.KeyLoq = s.KeyLoq := by
  unfold Decode_LogicalBit
  have h65' : (Start_Block s).Bitcnt = 65 := by simpa using h65
  simp only [hv, if_true, if_pos h65']
  exact ⟨_, rfl, by simp [h65], by simp, by simp⟩

/-- A valid bit at any position 0-64 leaves the bit counter, the phase flag
and the Repeat field unchanged through `Decode_DataPortion`. -/
theorem DP_valid_step (t : ℚ) (e : ℕ) (s : St)
    (hv : validHalfB t = true) (h0 : 0 ≤ s.Bitcnt) (h64 : s.Bitcnt ≤ 64) :
    ∃ s2 c, Decode_DataPortion t (some e) s = DPRes.done s2 c ∧
      s2.Bitcnt = s.Bitcnt ∧ s2.Header_Completed = s.Header_Completed ∧
      s2.KeyLoq.RPT = s.KeyLoq.RPT := by
  have h65 : ¬ s.Bitcnt = 65 := by omega
  obtain ⟨s1, heq, hb, hh, hk, hbs⟩ := LB_valid_ne t e s hv h65
  unfold Decode_DataPortion
  by_cases hA : s.Bitcnt ≤ 31
  · rw [if_pos hA, heq]
    dsimp only
    split_ifs <;> exact ⟨_, _, rfl, by simp [hb], by simp [hh], by simp [hk]⟩
  · rw [if_neg hA]
    by_cases hB : 32 ≤ s.Bitcnt ∧ s.Bitcnt ≤ 59
    · rw [if_pos hB, heq]
      dsimp only
      split_ifs <;> exact ⟨_, _, rfl, by simp [hb], by simp [hh], by simp [hk]⟩
    · rw [if_neg hB]
      by_cases hC : 60 ≤ s.Bitcnt ∧ s.Bitcnt ≤ 63
      · rw [if_pos hC, heq]
        dsimp only
        split_ifs <;> exact ⟨_, _, rfl, by simp [hb], by simp [hh], by simp [hk]⟩
      · rw [if_neg hC]
        have hD : s.Bitcnt = 64 := by omega
        rw [if_pos hD, heq]
        dsimp only
        exact ⟨_, _, rfl, by simp [hb], by simp [hh], by simp [hk]⟩

/-- A valid bit at position 65 finalizes the Repeat field from the decoded
bit value, clears the phase flag and marks the counter -1. -/
theorem DP_rpt_65 (t : ℚ) (next : Option ℕ) (s : St)
    (hv : validHalfB t = true) (h65 : s.Bitcnt = 65) :
    ∃ s2 c, Decode_DataPortion t next s = DPRes.done s2 c ∧
      s2.Bitcnt = -1 ∧ s2.Header_Completed = 0 ∧
      s2.KeyLoq.RPT = (if in_std_teB t then "Yes" else "No") := by
  obtain ⟨s1, heq, hb, hh, hk⟩ := LB_valid_65 t next s hv h65
  unfold Decode_DataPortion
  rw [if_neg (by omega), if_neg (by omega), if_neg (by omega), if_neg (by omega),
      if_pos h65, heq]
  dsimp only
  refine ⟨_, _, rfl, by simp, by simp, ?_⟩
  by_cases hstd : in_std_teB t = true
  · simp [hstd]
  · simp [Bool.eq_false_iff.mpr hstd]

/-- C7: one data-phase loop iteration (`Decode_DataPortion` then
`Bitcnt += 1`) on a valid bit advances the counter by one for positions
0-64 without touching the phase flag or the Repeat field, and at position
65 it finalizes the Repeat field from the decoded bit (1 gives "Yes", 0
gives "No"), clears the phase flag and wraps the counter back to 0 — so the
wrap happens exactly once per completed code word, with Repeat the field
finalized immediately before it. -/
theorem c7_bitcount_wrap (s : St) (t : ℚ) (e : ℕ) (next : Option ℕ)
    (hv : validHalfB t = true) :
    (0 ≤ s.Bitcnt → s.Bitcnt ≤ 64 →
      ∃ s', dataStep t (some e) s = some s' ∧ s'.Bitcnt = s.Bitcnt + 1 ∧
        s'.Header_Completed = s.Header_Completed ∧ s'.KeyLoq.RPT = s.KeyLoq.RPT) ∧
    (s.Bitcnt = 65 →
      ∃ s', dataStep t next s = some s' ∧ s'.Bitcnt = 0 ∧
        s'.Header_Completed = 0 ∧
        s'.KeyLoq.RPT = (if in_std_teB t then "Yes" else "No")) := by
  constructor
  · intro h0 h64
    obtain ⟨s2, c, heq, hb, hh, hr⟩ := DP_valid_step t e s hv h0 h64
    refine ⟨{ s2 with Bitcnt := s2.Bitcnt + 1, prevN := s2.samplenum }, ?_, ?_, ?_, ?_⟩
    · unfold dataStep
      rw [heq]
    · simp [hb]
    · simp [hh]
    · simp [hr]
  · intro h65
    obtain ⟨s2, c, heq, hb, hh, hr⟩ := DP_rpt_65 t next s hv h65
    refine ⟨{ s2 with Bitcnt := s2.Bitcnt + 1, prevN := s2.samplenum }, ?_, ?_, ?_, ?_⟩
    · unfold dataStep
      rw [heq]
    · simp [hb]
    · simp [hh]
    · simp [hr]

attribute [local semireducible] Rat.sub Rat.mul Rat.inv in
set_option maxRecDepth 100000 in
/-- Witness for C7: a 400 µs valid half bit stepped from a data-phase state
with the counter at 0, and from one with the counter at 65. -/
theorem c7_bitcount_wrap_witness :
    validHalfB ((400 : ℚ) / 1000000) = true ∧
    (0 ≤ ({ reset with Header_Completed := 1 } : St).Bitcnt ∧
     ({ reset with Header_Completed := 1 } : St).Bitcnt ≤ 64) ∧
    (∃ s', dataStep ((400 : ℚ) / 1000000) (some 777) { reset with Header_Completed := 1 } = some s' ∧
       s'.Bitcnt = ({ reset with Header_Completed := 1 } : St).Bitcnt + 1 ∧
       s'.Header_Completed = ({ reset with Header_Completed := 1 } : St).Header_Completed ∧
       s'.KeyLoq.RPT = ({ reset with Header_Completed := 1 } : St).KeyLoq.RPT) ∧
    (∃ s', dataStep ((400 : ℚ) / 1000000) none { reset with Header_Completed := 1, Bitcnt := 65 } = some s' ∧
       s'.Bitcnt = 0 ∧ s'.Header_Completed = 0 ∧
       s'.KeyLoq.RPT = (if in_std_teB ((400 : ℚ) / 1000000) then "Yes" else "No")) :=
  ⟨by decide, ⟨by decide, by decide⟩,
   (c7_bitcount_wrap { reset with Header_Completed := 1 } _ 777 none (by decide)).1
     (by decide) (by decide),
   (c7_bitcount_wrap { reset with Header_Completed := 1, Bitcnt := 65 } _ 777 none
     (by decide)).2 (by decide)⟩

/-- C10: an invalid half-bit duration at bit position 64 still populates
V-Low as if a 0 bit had been decoded ("Battery High") and emits the V-Low
annotations, because the branch was chosen on the pre-call counter and the
invalid path of `Decode_LogicalBit` returns "0"; position 65 likewise sets
RPT to "No"; by contrast, at button positions 60-63 the inner dispatch
re-reads the counter (now -1) and populates no button field, emitting only
the Invalid-Bit annotation. -/
theorem c10_invalid_dispatch (s : St) (t : ℚ) (next : Option ℕ)
    (hv : validHalfB t = false) :
    (s.Bitcnt = 64 →
      ∃ s' c, Decode_DataPortion t next s = DPRes.done s' c ∧
        s'.KeyLoq.VLow = "Battery High" ∧
        s'.KeyLoq.RPT = s.KeyLoq.RPT ∧
        s'.Header_Completed = 0 ∧ s'.Bitcnt = -1 ∧
        s'.anns = s.anns ++ [(s.prevN, s.n, Ann.LOGICAL_BIT, ">>> Invalid Bit <<< "),
                             (s.ssBlock, s.n, Ann.CODE_WORD, "V-Low"),
                             (s.prevN, s.n, Ann.FIXED_DATA, "Battery High")]) ∧
    (s.Bitcnt = 65 →
      ∃ s' c, Decode_DataPortion t next s = DPRes.done s' c ∧
        s'.KeyLoq.RPT = "No" ∧
        s'.KeyLoq.VLow = s.KeyLoq.VLow ∧
        s'.Header_Completed = 0 ∧ s'.Bitcnt = -1 ∧
        s'.anns = s.anns ++ [(s.prevN, s.n, Ann.LOGICAL_BIT, ">>> Invalid Bit <<< "),
                             (s.ssBlock, s.n, Ann.CODE_WORD, "RPT"),
                             (s.prevN, s.n, Ann.FIXED_DATA, "No")]) ∧
    (60 ≤ s.Bitcnt → s.Bitcnt ≤ 63 →
      ∃ s' c, Decode_DataPortion t next s = DPRes.done s' c ∧
        s'.KeyLoq = s.KeyLoq ∧
        s'.Header_Completed = 0 ∧ s'.Bitcnt = -1 ∧
        s'.anns = s.anns ++ [(s.prevN, s.n, Ann.LOGICAL_BIT, ">>> Invalid Bit <<< ")]) := by
  have hlb := LB_invalid t next s hv
  refine ⟨fun h64 => ?_, fun h65 => ?_, fun h60 h63 => ?_⟩
  · unfold Decode_DataPortion
    rw [if_neg (by omega), if_neg (by omega), if_neg (by omega), if_pos h64, hlb]
    dsimp only
    refine ⟨_, _, rfl, ?_, ?_, ?_, ?_, ?_⟩ <;>
      simp [put, Reset_DP_Cnts]
  · unfold Decode_DataPortion
    rw [if_neg (by omega), if_neg (by omega), if_neg (by omega), if_neg (by omega),
        if_pos h65, hlb]
    dsimp only
    refine ⟨_, _, rfl, ?_, ?_, ?_, ?_, ?_⟩ <;>
      simp [put, Reset_DP_Cnts]
  · unfold Decode_DataPortion
    rw [if_neg (by omega), if_neg (by omega), if_pos ⟨h60, h63⟩, hlb]
    dsimp only
    rw [if_neg (by simp [put, Reset_DP_Cnts]), if_neg (by simp [put, Reset_DP_Cnts]),
        if_neg (by simp [put, Reset_DP_Cnts]), if_neg (by simp [put, Reset_DP_Cnts])]
    refine ⟨_, _, rfl, ?_, ?_, ?_, ?_⟩ <;>
      simp [put, Reset_DP_Cnts]

/-- A concrete data-phase state with the bit counter at 64, used to witness
the C10 theorem. -/
def stBit64 : St :=
  { reset with Header_Completed := 1, Bitcnt := 64, prevN := 40, n := 50,
               samplenum := 50, ssBlock := 10 }

attribute [local semireducible] Rat.sub Rat.mul Rat.inv in
set_option maxRecDepth 100000 in
/-- Witness for C10: a 2 ms invalid duration at bit position 64 of a
concrete data-phase state. -/
theorem c10_invalid_dispatch_witness :
    validHalfB ((2 : ℚ) / 1000) = false ∧
    stBit64.Bitcnt = 64 ∧
    (∃ s' c, Decode_DataPortion ((2 : ℚ) / 1000) none stBit64 = DPRes.done s' c ∧
      s'.KeyLoq.VLow = "Battery High" ∧
      s'.KeyLoq.RPT = stBit64.KeyLoq.RPT ∧
      s'.Header_Completed = 0 ∧ s'.Bitcnt = -1 ∧
      s'.anns = stBit64.anns ++
        [(stBit64.prevN, stBit64.n, Ann.LOGICAL_BIT, ">>> Invalid Bit <<< "),
         (stBit64.ssBlock, stBit64.n, Ann.CODE_WORD, "V-Low"),
         (stBit64.prevN, stBit64.n, Ann.FIXED_DATA, "Battery High")]) :=
  ⟨by decide, by decide,
   (c10_invalid_dispatch stBit64 _ none (by decide)).1 (by decide)⟩

/-! ## Hexadecimal formatting lemmas -/

/-- Numeric value of one uppercase hexadecimal digit character. -/
def hexDigitVal (c : Char) : ℕ :=
  if c.toNat ≤ 57 then c.toNat - 48 else c.toNat - 55

/-- Numeric value of a most-significant-first hexadecimal digit list. -/
def hexValDigits (l : List Char) : ℕ :=
  l.foldl (fun a c => 16 * a + hexDigitVal c) 0

theorem hexDigitVal_hexDigitChar : ∀ m, m < 16 → hexDigitVal (hexDigitChar m) = m := by
  decide

theorem hexValDigits_append_single (l : List Char) (c : Char) :
    hexValDigits (l ++ [c]) = 16 * hexValDigits l + hexDigitVal c := by
  unfold hexValDigits
  rw [List.foldl_append]
  rfl

theorem hexValDigits_replicate_zero (k : ℕ) (l : List Char) :
    hexValDigits (List.replicate k '0' ++ l) = hexValDigits l := by
  induction k with
  | zero => simp
  | succ k ih =>
    rw [List.replicate_succ, List.cons_append]
    unfold hexValDigits
    simp only [List.foldl_cons]
    have h0 : 16 * 0 + hexDigitVal '0' = 0 := by decide
    rw [h0]
    exact ih

/-- With fuel at least the value, the fuelled digit expansion is exact:
reading its digits back (most significant first) returns the value. -/
theorem toHexRevAux_val : ∀ f n : ℕ, n ≤ f →
    hexValDigits ((toHexRevAux f n).reverse) = n := by
  intro f
  induction f with
  | zero =>
    intro n hn
    have : n = 0 := Nat.le_zero.mp hn
    subst this
    rfl
  | succ f ih =>
    intro n hn
    match n with
    | 0 => rfl
    | m + 1 =>
      rw [toHexRevAux, List.reverse_cons, hexValDigits_append_single]
      have hdiv : (m + 1) / 16 ≤ f := by
        have := Nat.div_lt_self (Nat.succ_pos m) (by norm_num : 1 < 16)
        omega
      rw [ih _ hdiv, hexDigitVal_hexDigitChar _ (Nat.mod_lt _ (by norm_num))]
      exact Nat.div_add_mod (m + 1) 16

/-- The digit expansion used by `Bin2Hex` is exact. -/
theorem toHexRevDigits_val (n : ℕ) :
    hexValDigits ((toHexRevDigits n).reverse) = n :=
  toHexRevAux_val n n le_rfl

/-- C6: `Bin2Hex` interprets the accumulated bit string as an unsigned
integer (`binToNat`) and renders it as 0x followed by at least seven
hexadecimal digits whose value is exactly that integer — zero-padded, never
truncated.  Concretely: 32 zero bits give "0x0000000", value 1 gives
"0x0000001", and the 33-bit value 2^32 keeps all nine digits
("0x100000000"). -/
theorem c6_bin2hex :
    (∀ bs : String, ∃ ds : List Char,
        Bin2Hex bs = "0x" ++ String.mk ds ∧ 7 ≤ ds.length ∧
        hexValDigits ds = binToNat bs) ∧
    Bin2Hex (String.mk (List.replicate 32 '0')) = "0x0000000" ∧
    Bin2Hex (String.mk (List.replicate 31 '0' ++ ['1'])) = "0x0000001" ∧
    Bin2Hex (String.mk ('1' :: List.replicate 32 '0')) = "0x100000000" := by
  refine ⟨fun bs => ?_, by decide, by decide, by decide⟩
  refine ⟨List.replicate (7 - ((toHexRevDigits (binToNat bs)).reverse).length) '0' ++
            (toHexRevDigits (binToNat bs)).reverse, rfl, ?_, ?_⟩
  · rw [List.length_append, List.length_replicate]
    omega
  · rw [hexValDigits_replicate_zero, toHexRevDigits_val]
